import Mathlib

/-!
# Verification of the Library Book Inventory Manager (`src/week2.py`)

Shallow embedding of the catalog store from `week2.py`.

Python semantics captured here:
* `Book` objects are mutable and shared by reference between `books_by_isbn`
  and the two secondary indexes.  We model the object store as a `heap : List Book`
  and represent each Python object reference by its allocation index ("tag") in
  the heap.  The dictionaries hold tags; dereferencing a tag reads the heap.
* Python `dict` preserves insertion order, and assigning to an existing key
  keeps the key's original position (`dictInsert`).
* `dict.setdefault(k, []).append(x)` appends to the list of the first entry
  with key `k`, creating a new entry at the end when absent (`setdefaultAppend`).
* `str.lower()` is modelled by `lowerStr` (per-character `Char.toLower`).
* `save_data` / `load_data` exchange a JSON list of objects with fields
  `isbn`, `title`, `author`, `issued_to`; an entry of that file is exactly a
  `Book` value, so file contents are modelled as `Option (List Book)`
  (`none` = the path does not exist).
-/

set_option autoImplicit false

namespace Week2

/-- Model of Python `str.lower()`: lowercase every character. -/
def lowerStr (s : String) : String := ⟨s.data.map Char.toLower⟩

/-- Fields of `Book.__init__` plus the `issued_to` state (`None` = available).
A value of this type also serves as the serialized form exchanged by
`to_dict` / `from_dict`, whose fields are identical. -/
structure Book where
  isbn : String
  title : String
  author : String
  issued_to : Option String
deriving DecidableEq

/-- Model of `Book.issue_to`: succeed and record the holder iff currently not issued. -/
def Book.issue_to (b : Book) (user_id : String) : Bool × Book :=
  match b.issued_to with
  | none => (true, { b with issued_to := some user_id })
  | some _ => (false, b)

/-- Model of `Book.return_book`: succeed and clear the holder iff currently issued. -/
def Book.return_book (b : Book) : Bool × Book :=
  match b.issued_to with
  | some _ => (true, { b with issued_to := none })
  | none => (false, b)

/-- Model of `Book.is_issued`. -/
def Book.is_issued (b : Book) : Bool := b.issued_to.isSome

/-- Python `dict` assignment `m[k] = v`: replace the value of the first entry
with key `k` in place, or append a new entry when `k` is absent. -/
def dictInsert (m : List (String × Nat)) (key : String) (v : Nat) :
    List (String × Nat) :=
  match m with
  | [] => [(key, v)]
  | (k, w) :: rest =>
    if k = key then (k, v) :: rest else (k, w) :: dictInsert rest key v

/-- Python `m.setdefault(key, []).append(t)`: append `t` to the list of the
first entry with key `key`, creating the entry at the end when absent. -/
def setdefaultAppend (idx : List (String × List Nat)) (key : String) (t : Nat) :
    List (String × List Nat) :=
  match idx with
  | [] => [(key, [t])]
  | (k, v) :: rest =>
    if k = key then (k, v ++ [t]) :: rest
    else (k, v) :: setdefaultAppend rest key t

/-- The `Library` state: the heap of allocated `Book` objects plus the three
dictionaries of `Library.__init__`, which store heap tags in place of object
references. -/
structure Library where
  heap : List Book
  books_by_isbn : List (String × Nat)
  books_by_title : List (String × List Nat)
  books_by_author : List (String × List Nat)
deriving DecidableEq

/-- The state of `Library.__init__` before `load_data` runs. -/
def Library.empty : Library := ⟨[], [], [], []⟩

/-- Model of `Library.add_book`. On a fresh isbn it allocates a `Book`, stores it under
its isbn, and appends its tag to the title index under `title.lower()` and to
the author index under `author.lower()`. On a collision it returns `False`
without touching the state. -/
def Library.add_book (lib : Library) (isbn title author : String) :
    Bool × Library :=
  if (lib.books_by_isbn.lookup isbn).isSome then
    (false, lib)
  else
    let book : Book := ⟨isbn, title, author, none⟩
    let tag := lib.heap.length
    (true,
      { heap := lib.heap ++ [book]
        books_by_isbn := dictInsert lib.books_by_isbn isbn tag
        books_by_title := setdefaultAppend lib.books_by_title (lowerStr title) tag
        books_by_author := setdefaultAppend lib.books_by_author (lowerStr author) tag })

/-- Model of `Library.search_by_title`: `self.books_by_title.get(title.lower(), [])`,
dereferenced to the `Book` objects; `self` is returned unchanged because the
method performs no assignment. -/
def Library.search_by_title (lib : Library) (title : String) :
    List Book × Library :=
  (((lib.books_by_title.lookup (lowerStr title)).getD []).filterMap
      (fun t => lib.heap[t]?), lib)

/-- Model of `Library.search_by_author`, symmetric to `search_by_title`. -/
def Library.search_by_author (lib : Library) (author : String) :
    List Book × Library :=
  (((lib.books_by_author.lookup (lowerStr author)).getD []).filterMap
      (fun t => lib.heap[t]?), lib)

/-- Model of `Library.issue_book`: look the isbn up, then delegate to `Book.issue_to`;
the in-place mutation of the shared `Book` object is a write to its heap cell. -/
def Library.issue_book (lib : Library) (isbn user_id : String) : Bool × Library :=
  match lib.books_by_isbn.lookup isbn with
  | none => (false, lib)
  | some tag =>
    match lib.heap[tag]? with
    | none => (false, lib)
    | some book =>
      let r := book.issue_to user_id
      (r.1, { lib with heap := lib.heap.set tag r.2 })

/-- Model of `Library.return_book`: look the isbn up, then delegate to `Book.return_book`. -/
def Library.return_book (lib : Library) (isbn : String) : Bool × Library :=
  match lib.books_by_isbn.lookup isbn with
  | none => (false, lib)
  | some tag =>
    match lib.heap[tag]? with
    | none => (false, lib)
    | some book =>
      let r := book.return_book
      (r.1, { lib with heap := lib.heap.set tag r.2 })

/-- Model of `Library.total_books`: `len(self.books_by_isbn)`. -/
def Library.total_books (lib : Library) : Nat := lib.books_by_isbn.length

/-- The list `self.books_by_isbn.values()` as `Book` objects, in dictionary order. -/
def Library.values (lib : Library) : List Book :=
  lib.books_by_isbn.filterMap (fun p => lib.heap[p.2]?)

/-- Model of `Library.issued_count`: `sum(1 for b in values() if b.is_issued())`. -/
def Library.issued_count (lib : Library) : Nat :=
  (lib.values.filter Book.is_issued).length

/-- Model of `Library.save_data`: the JSON list written to the data file is
`[b.to_dict() for b in self.books_by_isbn.values()]`, and `to_dict` carries
exactly the four `Book` fields. -/
def Library.save_data (lib : Library) : List Book := lib.values

/-- One iteration of the `load_data` loop: `Book.from_dict(d)` allocates a new
object, which is stored under its isbn (overwriting any previous entry, as
Python dict assignment does) and appended to both secondary indexes. -/
def Library.loadOne (lib : Library) (b : Book) : Library :=
  let tag := lib.heap.length
  { heap := lib.heap ++ [b]
    books_by_isbn := dictInsert lib.books_by_isbn b.isbn tag
    books_by_title := setdefaultAppend lib.books_by_title (lowerStr b.title) tag
    books_by_author := setdefaultAppend lib.books_by_author (lowerStr b.author) tag }

/-- Model of `Library.load_data`: when the data file is absent (`none`) the store is
left untouched; otherwise every parsed entry is loaded in file order. -/
def Library.load_data (lib : Library) (content : Option (List Book)) : Library :=
  match content with
  | none => lib
  | some data => data.foldl Library.loadOne lib

/-- Model of `Library.__init__`: start from the empty dictionaries and run `load_data`
on whatever the data file holds. -/
def Library.construct (content : Option (List Book)) : Library :=
  Library.empty.load_data content

/-- Run a sequence of `add_book` calls (isbn, title, author), collecting the
returned booleans and the final state. -/
def Library.addAll (lib : Library) (calls : List (String × String × String)) :
    List Bool × Library :=
  match calls with
  | [] => ([], lib)
  | c :: rest =>
    let r := lib.add_book c.1 c.2.1 c.2.2
    let r' := r.2.addAll rest
    (r.1 :: r'.1, r'.2)

/-! ## Helper lemmas about the dictionary operations -/

theorem set_self_of_getElem? {α : Type} (l : List α) (n : Nat) (a : α)
    (h : l[n]? = some a) : l.set n a = l := by
  induction l generalizing n with
  | nil => simp at h
  | cons x xs ih =>
    cases n with
    | zero => simp_all
    | succ m =>
      simp only [List.getElem?_cons_succ] at h
      simp [ih m h]

theorem lookup_dictInsert (m : List (String × Nat)) (key k' : String) (v : Nat) :
    (dictInsert m key v).lookup k' = if k' = key then some v else m.lookup k' := by
  induction m with
  | nil =>
    by_cases h : k' = key
    · simp [dictInsert, List.lookup, h]
    · have hne : (k' == key) = false := by simp [h]
      simp [dictInsert, List.lookup, hne, h]
  | cons p rest ih =>
    obtain ⟨k, w⟩ := p
    by_cases hk : k = key
    · subst hk
      by_cases h' : k' = k
      · simp [dictInsert, List.lookup, h']
      · have hne : (k' == k) = false := by simp [h']
        simp [dictInsert, List.lookup, hne, h']
    · by_cases h' : k' = k
      · subst h'
        have hne : ¬ (k' = key) := hk
        simp [dictInsert, hk, List.lookup, hne]
      · have hne : (k' == k) = false := by simp [h']
        simp [dictInsert, hk, List.lookup, hne, ih]

theorem dictInsert_of_lookup_none (m : List (String × Nat)) (key : String)
    (v : Nat) (h : m.lookup key = none) : dictInsert m key v = m ++ [(key, v)] := by
  induction m with
  | nil => simp [dictInsert]
  | cons p rest ih =>
    obtain ⟨k, w⟩ := p
    by_cases hk : k = key
    · subst hk; simp [List.lookup] at h
    · have hne : (key == k) = false := by
        simp [Ne.symm hk]
      simp only [List.lookup, hne] at h
      simp [dictInsert, hk, ih h]

theorem lookup_setdefaultAppend_self (idx : List (String × List Nat))
    (key : String) (t : Nat) :
    (setdefaultAppend idx key t).lookup key
      = some (((idx.lookup key).getD []) ++ [t]) := by
  induction idx with
  | nil => simp [setdefaultAppend, List.lookup]
  | cons p rest ih =>
    obtain ⟨k, v⟩ := p
    by_cases hk : k = key
    · subst hk; simp [setdefaultAppend, List.lookup]
    · have hne : (key == k) = false := by
        simp [Ne.symm hk]
      simp [setdefaultAppend, hk, List.lookup, hne, ih]

theorem lookup_setdefaultAppend_ne (idx : List (String × List Nat))
    (key k' : String) (t : Nat) (h : k' ≠ key) :
    (setdefaultAppend idx key t).lookup k' = idx.lookup k' := by
  induction idx with
  | nil =>
    have hne : (k' == key) = false := by simp [h]
    simp [setdefaultAppend, List.lookup, hne]
  | cons p rest ih =>
    obtain ⟨k, v⟩ := p
    by_cases hk : k = key
    · subst hk
      have hne : (k' == k) = false := by simp [h]
      simp [setdefaultAppend, List.lookup, hne]
    · by_cases h' : k' = k
      · subst h'; simp [setdefaultAppend, hk, List.lookup]
      · have hne : (k' == k) = false := by simp [h']
        simp [setdefaultAppend, hk, List.lookup, hne, ih]

theorem addAll_fresh (calls : List (String × String × String)) :
    ∀ lib : Library, (calls.map Prod.fst).Nodup →
      (∀ c ∈ calls, lib.books_by_isbn.lookup c.1 = none) →
      (lib.addAll calls).1 = List.replicate calls.length true ∧
      (lib.addAll calls).2.total_books = lib.total_books + calls.length := by
  induction calls with
  | nil =>
    intro lib _ _
    simp [Library.addAll]
  | cons c rest ih =>
    intro lib hnodup hfresh
    simp only [List.map_cons, List.nodup_cons] at hnodup
    obtain ⟨hnotmem, hnd⟩ := hnodup
    have hc : lib.books_by_isbn.lookup c.1 = none := hfresh c (by simp)
    have hissome : (lib.books_by_isbn.lookup c.1).isSome = false := by simp [hc]
    have r1 : (lib.add_book c.1 c.2.1 c.2.2).1 = true := by
      simp [Library.add_book, hissome]
    have hmap : (lib.add_book c.1 c.2.1 c.2.2).2.books_by_isbn
        = dictInsert lib.books_by_isbn c.1 lib.heap.length := by
      simp [Library.add_book, hissome]
    have hfresh' : ∀ c' ∈ rest,
        (lib.add_book c.1 c.2.1 c.2.2).2.books_by_isbn.lookup c'.1 = none := by
      intro c' hc'
      have hne : c'.1 ≠ c.1 := by
        intro he
        exact hnotmem (he ▸ List.mem_map_of_mem Prod.fst hc')
      rw [hmap, lookup_dictInsert]
      simp only [hne, if_false]
      exact hfresh c' (List.mem_cons_of_mem c hc')
    obtain ⟨ihres, ihtot⟩ := ih (lib.add_book c.1 c.2.1 c.2.2).2 hnd hfresh'
    constructor
    · show ((lib.add_book c.1 c.2.1 c.2.2).1
          :: ((lib.add_book c.1 c.2.1 c.2.2).2.addAll rest).1) = _
      rw [r1, ihres]
      simp [List.replicate]
    · show ((lib.add_book c.1 c.2.1 c.2.2).2.addAll rest).2.total_books = _
      rw [ihtot]
      have : (lib.add_book c.1 c.2.1 c.2.2).2.total_books
          = lib.total_books + 1 := by
        rw [Library.total_books, hmap, dictInsert_of_lookup_none _ _ _ hc]
        simp [Library.total_books]
      rw [this]
      simp only [List.length_cons]
      omega

/-! ## Claims -/

/-- C3: `addRecord` on an id already present in the primary mapping returns
`false` and leaves the entire store state unchanged. -/
theorem add_book_collision_no_mutation (lib : Library) (isbn title author : String)
    (h : (lib.books_by_isbn.lookup isbn).isSome = true) :
    lib.add_book isbn title author = (false, lib) := by
  simp [Library.add_book, h]

/-- Witness for C3: after adding isbn `"1"`, adding `"1"` again returns
`false` and leaves the store exactly as it was. -/
theorem add_book_collision_no_mutation_witness :
    ((((Library.empty.add_book "1" "Dune" "Frank Herbert").2.books_by_isbn.lookup
        "1").isSome = true) ∧
      (Library.empty.add_book "1" "Dune" "Frank Herbert").2.add_book "1" "Other" "Writer"
        = (false, (Library.empty.add_book "1" "Dune" "Frank Herbert").2)) :=
  ⟨by decide, add_book_collision_no_mutation _ _ _ _ (by decide)⟩

/-- C4: starting from the empty store, a sequence of `add_book` calls with
pairwise-distinct isbns returns `true` at every call and leaves
`total_books` equal to the number of calls. -/
theorem addAll_distinct_ids (calls : List (String × String × String))
    (h : (calls.map Prod.fst).Nodup) :
    (Library.empty.addAll calls).1 = List.replicate calls.length true ∧
    (Library.empty.addAll calls).2.total_books = calls.length := by
  have hfresh : ∀ c ∈ calls, Library.empty.books_by_isbn.lookup c.1 = none := by
    intro c _; rfl
  have h2 := addAll_fresh calls Library.empty h hfresh
  simpa [Library.total_books, Library.empty] using h2

/-- Witness for C4 at two concrete calls with distinct isbns. -/
theorem addAll_distinct_ids_witness :
    ((([("1", "Dune", "Frank Herbert"), ("2", "1984", "George Orwell")].map
        Prod.fst).Nodup) ∧
      (Library.empty.addAll
          [("1", "Dune", "Frank Herbert"), ("2", "1984", "George Orwell")]).1
        = List.replicate 2 true ∧
      (Library.empty.addAll
          [("1", "Dune", "Frank Herbert"), ("2", "1984", "George Orwell")]).2.total_books
        = 2) :=
  ⟨by decide, addAll_distinct_ids _ (by decide)⟩

/-- C8: constructing a store when the data file does not exist leaves the
store empty, with `total_books = 0`, and no failure occurs (`load_data`
returns immediately). -/
theorem construct_missing_file_empty :
    Library.construct none = Library.empty ∧
    (Library.construct none).total_books = 0 :=
  ⟨rfl, rfl⟩

/-- C10: `search_by_title` and `search_by_author` return the store component
unchanged for every query, including queries whose lowercased key has no
index entry (`dict.get` never inserts). -/
theorem search_leaves_state_unchanged (lib : Library) (q : String) :
    (lib.search_by_title q).2 = lib ∧ (lib.search_by_author q).2 = lib :=
  ⟨rfl, rfl⟩

/-- C5: issuing a present, not-issued book to `"alice"` returns `true` and
marks it issued; a subsequent issue to `"bob"` returns `false`, changes
nothing, and the holder stays `"alice"`. -/
theorem checkout_then_conflicting_checkout (lib : Library) (isbn : String)
    (tag : Nat) (b : Book)
    (h1 : lib.books_by_isbn.lookup isbn = some tag)
    (h2 : lib.heap[tag]? = some b)
    (h3 : b.issued_to = none) :
    (lib.issue_book isbn "alice").1 = true ∧
    ((lib.issue_book isbn "alice").2.heap[tag]?).map Book.is_issued = some true ∧
    ((lib.issue_book isbn "alice").2.issue_book isbn "bob").1 = false ∧
    ((lib.issue_book isbn "alice").2.issue_book isbn "bob").2
      = (lib.issue_book isbn "alice").2 ∧
    (((lib.issue_book isbn "alice").2.issue_book isbn "bob").2.heap[tag]?).map
        Book.issued_to = some (some "alice") := by
  have hlt : tag < lib.heap.length := by
    rcases List.getElem?_eq_some.mp h2 with ⟨h, _⟩
    exact h
  have e1 : lib.issue_book isbn "alice"
      = (true, { lib with heap := lib.heap.set tag { b with issued_to := some "alice" } }) := by
    simp [Library.issue_book, h1, h2, Book.issue_to, h3]
  have hheap1 : ({ lib with
      heap := lib.heap.set tag { b with issued_to := some "alice" } } : Library).heap[tag]?
      = some { b with issued_to := some "alice" } :=
    List.getElem?_set_self hlt
  have e2 : ({ lib with
        heap := lib.heap.set tag { b with issued_to := some "alice" } } : Library).issue_book
          isbn "bob"
      = (false, { lib with
          heap := lib.heap.set tag { b with issued_to := some "alice" } }) := by
    have hl : ({ lib with
        heap := lib.heap.set tag { b with issued_to := some "alice" } } : Library).books_by_isbn.lookup
          isbn = some tag := h1
    simp only [Library.issue_book, hl, hheap1, Book.issue_to]
    rw [set_self_of_getElem? _ _ _ hheap1]
  rw [e1]
  refine ⟨rfl, ?_, ?_, ?_, ?_⟩
  · rw [hheap1]
    rfl
  · rw [e2]
  · rw [e2]
  · rw [e2]
    rw [hheap1]
    rfl

/-- Witness for C5 at a store holding the single fresh book `"1"`. -/
theorem checkout_then_conflicting_checkout_witness :
    ((Library.empty.add_book "1" "Dune" "Frank Herbert").2.books_by_isbn.lookup "1"
        = some 0) ∧
    ((Library.empty.add_book "1" "Dune" "Frank Herbert").2.heap[(0 : Nat)]?
        = some (⟨"1", "Dune", "Frank Herbert", none⟩ : Book)) ∧
    ((⟨"1", "Dune", "Frank Herbert", none⟩ : Book).issued_to = none) ∧
    (((Library.empty.add_book "1" "Dune" "Frank Herbert").2.issue_book "1" "alice").1
        = true ∧
      (((Library.empty.add_book "1" "Dune" "Frank Herbert").2.issue_book "1"
            "alice").2.heap[(0 : Nat)]?).map Book.is_issued = some true ∧
      ((((Library.empty.add_book "1" "Dune" "Frank Herbert").2.issue_book "1"
            "alice").2.issue_book "1" "bob").1 = false) ∧
      ((((Library.empty.add_book "1" "Dune" "Frank Herbert").2.issue_book "1"
            "alice").2.issue_book "1" "bob").2
          = ((Library.empty.add_book "1" "Dune" "Frank Herbert").2.issue_book "1"
              "alice").2) ∧
      (((((Library.empty.add_book "1" "Dune" "Frank Herbert").2.issue_book "1"
            "alice").2.issue_book "1" "bob").2.heap[(0 : Nat)]?).map Book.issued_to
          = some (some "alice"))) :=
  ⟨by decide, by decide, by decide,
    checkout_then_conflicting_checkout (Library.empty.add_book "1" "Dune" "Frank Herbert").2
      "1" 0 ⟨"1", "Dune", "Frank Herbert", none⟩ (by decide) (by decide) (by decide)⟩

/-- C6: releasing a present, issued book returns `true` and clears the
holder; releasing it again returns `false` and it stays not held. -/
theorem release_then_release_again (lib : Library) (isbn : String)
    (tag : Nat) (b : Book) (u : String)
    (h1 : lib.books_by_isbn.lookup isbn = some tag)
    (h2 : lib.heap[tag]? = some b)
    (h3 : b.issued_to = some u) :
    (lib.return_book isbn).1 = true ∧
    ((lib.return_book isbn).2.heap[tag]?).map Book.issued_to = some none ∧
    ((lib.return_book isbn).2.return_book isbn).1 = false ∧
    (((lib.return_book isbn).2.return_book isbn).2.heap[tag]?).map
        Book.issued_to = some none := by
  have hlt : tag < lib.heap.length := by
    rcases List.getElem?_eq_some.mp h2 with ⟨h, _⟩
    exact h
  have e1 : lib.return_book isbn
      = (true, { lib with heap := lib.heap.set tag { b with issued_to := none } }) := by
    simp [Library.return_book, h1, h2, Book.return_book, h3]
  have hheap1 : ({ lib with
      heap := lib.heap.set tag { b with issued_to := none } } : Library).heap[tag]?
      = some { b with issued_to := none } :=
    List.getElem?_set_self hlt
  have e2 : ({ lib with
        heap := lib.heap.set tag { b with issued_to := none } } : Library).return_book isbn
      = (false, { lib with
          heap := lib.heap.set tag { b with issued_to := none } }) := by
    have hl : ({ lib with
        heap := lib.heap.set tag { b with issued_to := none } } : Library).books_by_isbn.lookup
          isbn = some tag := h1
    simp only [Library.return_book, hl, hheap1, Book.return_book]
    rw [set_self_of_getElem? _ _ _ hheap1]
  rw [e1]
  refine ⟨rfl, ?_, ?_, ?_⟩
  · rw [hheap1]
    rfl
  · rw [e2]
  · rw [e2]
    rw [hheap1]
    rfl

/-- Witness for C6: issue book `"1"` to `"u"`, then release it twice. -/
theorem release_then_release_again_witness :
    ((((Library.empty.add_book "1" "Dune" "Frank Herbert").2.issue_book "1"
          "u").2.books_by_isbn.lookup "1" = some 0) ∧
      (((Library.empty.add_book "1" "Dune" "Frank Herbert").2.issue_book "1"
          "u").2.heap[(0 : Nat)]? = some (⟨"1", "Dune", "Frank Herbert", some "u"⟩ : Book)) ∧
      ((⟨"1", "Dune", "Frank Herbert", some "u"⟩ : Book).issued_to = some "u") ∧
      ((((Library.empty.add_book "1" "Dune" "Frank Herbert").2.issue_book "1"
            "u").2.return_book "1").1 = true ∧
        (((((Library.empty.add_book "1" "Dune" "Frank Herbert").2.issue_book "1"
            "u").2.return_book "1").2.heap[(0 : Nat)]?).map Book.issued_to
            = some none) ∧
        ((((((Library.empty.add_book "1" "Dune" "Frank Herbert").2.issue_book "1"
            "u").2.return_book "1").2.return_book "1").1 = false)) ∧
        (((((((Library.empty.add_book "1" "Dune" "Frank Herbert").2.issue_book "1"
            "u").2.return_book "1").2.return_book "1").2.heap[(0 : Nat)]?).map
              Book.issued_to = some none)))) :=
  ⟨by decide, by decide, by decide,
    release_then_release_again
      ((Library.empty.add_book "1" "Dune" "Frank Herbert").2.issue_book "1" "u").2
      "1" 0 ⟨"1", "Dune", "Frank Herbert", some "u"⟩ "u"
      (by decide) (by decide) (by decide)⟩

/-- C9: issuing a present, not-issued book with the empty string as user id
returns `true` and records the empty string as the holder: `issue_to` only
tests `issued_to is None` and never validates the user id. -/
theorem checkout_accepts_empty_holder (lib : Library) (isbn : String)
    (tag : Nat) (b : Book)
    (h1 : lib.books_by_isbn.lookup isbn = some tag)
    (h2 : lib.heap[tag]? = some b)
    (h3 : b.issued_to = none) :
    (lib.issue_book isbn "").1 = true ∧
    ((lib.issue_book isbn "").2.heap[tag]?).map Book.issued_to
      = some (some "") := by
  have hlt : tag < lib.heap.length := by
    rcases List.getElem?_eq_some.mp h2 with ⟨h, _⟩
    exact h
  have e1 : lib.issue_book isbn ""
      = (true, { lib with heap := lib.heap.set tag { b with issued_to := some "" } }) := by
    simp [Library.issue_book, h1, h2, Book.issue_to, h3]
  rw [e1]
  refine ⟨rfl, ?_⟩
  rw [List.getElem?_set_self hlt]
  rfl

/-- Witness for C9 at a store holding the single fresh book `"1"`. -/
theorem checkout_accepts_empty_holder_witness :
    ((Library.empty.add_book "1" "Dune" "Frank Herbert").2.books_by_isbn.lookup "1"
        = some 0) ∧
    ((Library.empty.add_book "1" "Dune" "Frank Herbert").2.heap[(0 : Nat)]?
        = some (⟨"1", "Dune", "Frank Herbert", none⟩ : Book)) ∧
    ((⟨"1", "Dune", "Frank Herbert", none⟩ : Book).issued_to = none) ∧
    (((Library.empty.add_book "1" "Dune" "Frank Herbert").2.issue_book "1" "").1
        = true ∧
      (((Library.empty.add_book "1" "Dune" "Frank Herbert").2.issue_book "1"
          "").2.heap[(0 : Nat)]?).map Book.issued_to = some (some "")) :=
  ⟨by decide, by decide, by decide,
    checkout_accepts_empty_holder (Library.empty.add_book "1" "Dune" "Frank Herbert").2
      "1" 0 ⟨"1", "Dune", "Frank Herbert", none⟩ (by decide) (by decide) (by decide)⟩

/-- C7: after adding `(isbn, "Dune", "Frank Herbert")` to a store whose title
index has no entries under `"dune"`, searching for `"dune"` and for `"DUNE"`
both return exactly the one new record: the index key is the lowercased
title. -/
theorem search_title_case_insensitive (lib : Library) (isbn : String)
    (h1 : (lib.books_by_isbn.lookup isbn).isSome = false)
    (h2 : (lib.books_by_title.lookup "dune").getD [] = []) :
    (lib.add_book isbn "Dune" "Frank Herbert").1 = true ∧
    ((lib.add_book isbn "Dune" "Frank Herbert").2.search_by_title "dune").1
      = [⟨isbn, "Dune", "Frank Herbert", none⟩] ∧
    ((lib.add_book isbn "Dune" "Frank Herbert").2.search_by_title "DUNE").1
      = [⟨isbn, "Dune", "Frank Herbert", none⟩] := by
  have hlow1 : lowerStr "Dune" = "dune" := rfl
  have hlow2 : lowerStr "DUNE" = "dune" := rfl
  have e1 : lib.add_book isbn "Dune" "Frank Herbert"
      = (true,
          { heap := lib.heap ++ [⟨isbn, "Dune", "Frank Herbert", none⟩]
            books_by_isbn := dictInsert lib.books_by_isbn isbn lib.heap.length
            books_by_title :=
              setdefaultAppend lib.books_by_title "dune" lib.heap.length
            books_by_author :=
              setdefaultAppend lib.books_by_author "frank herbert" lib.heap.length }) := by
    simp [Library.add_book, h1]
    exact ⟨rfl, rfl⟩
  rw [e1]
  have hlk : (setdefaultAppend lib.books_by_title "dune" lib.heap.length).lookup "dune"
      = some [lib.heap.length] := by
    rw [lookup_setdefaultAppend_self]
    rw [h2]
    rfl
  have hget : (lib.heap ++ [(⟨isbn, "Dune", "Frank Herbert", none⟩ : Book)])[lib.heap.length]?
      = some ⟨isbn, "Dune", "Frank Herbert", none⟩ :=
    List.getElem?_concat_length _ _
  refine ⟨rfl, ?_, ?_⟩
  · show ((((setdefaultAppend lib.books_by_title "dune" lib.heap.length).lookup
        (lowerStr "dune")).getD []).filterMap _) = _
    rw [show lowerStr "dune" = "dune" from rfl, hlk]
    simp [hget]
  · show ((((setdefaultAppend lib.books_by_title "dune" lib.heap.length).lookup
        (lowerStr "DUNE")).getD []).filterMap _) = _
    rw [hlow2, hlk]
    simp [hget]

/-- Witness for C7 on the empty store. -/
theorem search_title_case_insensitive_witness :
    ((Library.empty.books_by_isbn.lookup "7").isSome = false) ∧
    ((Library.empty.books_by_title.lookup "dune").getD [] = []) ∧
    ((Library.empty.add_book "7" "Dune" "Frank Herbert").1 = true ∧
      ((Library.empty.add_book "7" "Dune" "Frank Herbert").2.search_by_title "dune").1
        = [⟨"7", "Dune", "Frank Herbert", none⟩] ∧
      ((Library.empty.add_book "7" "Dune" "Frank Herbert").2.search_by_title "DUNE").1
        = [⟨"7", "Dune", "Frank Herbert", none⟩]) :=
  ⟨by decide, by decide, search_title_case_insensitive _ _ (by decide) (by decide)⟩

/-! ## Reachability, the store invariant, and index consistency -/

/-- The Records reachable from the title index: every tag of every entry,
dereferenced through the heap. -/
def Library.titleBooks (lib : Library) : List Book :=
  ((lib.books_by_title.map Prod.snd).flatten).filterMap (fun t => lib.heap[t]?)

/-- The Records reachable from the author index. -/
def Library.authorBooks (lib : Library) : List Book :=
  ((lib.books_by_author.map Prod.snd).flatten).filterMap (fun t => lib.heap[t]?)

/-- The consistency property claimed by the spec: every Record reachable from
a secondary index is present in the primary mapping, and the sets of Records
reachable from the three structures are identical. -/
def consistent (lib : Library) : Prop :=
  (∀ b ∈ lib.titleBooks, b ∈ lib.values) ∧
  (∀ b ∈ lib.authorBooks, b ∈ lib.values) ∧
  (∀ b ∈ lib.values, b ∈ lib.titleBooks) ∧
  (∀ b ∈ lib.values, b ∈ lib.authorBooks)

instance (lib : Library) : Decidable (consistent lib) := by
  unfold consistent
  infer_instance

/-- Store states reachable by any sequence of `add_book`, `issue_book`,
`return_book` and `load_data` calls; `load_data` may read any file contents
(including an absent file, `none`). -/
inductive Reachable : Library → Prop where
  | init : Reachable Library.empty
  | add (lib : Library) (isbn title author : String) : Reachable lib →
      Reachable (lib.add_book isbn title author).2
  | issue (lib : Library) (isbn user_id : String) : Reachable lib →
      Reachable (lib.issue_book isbn user_id).2
  | ret (lib : Library) (isbn : String) : Reachable lib →
      Reachable (lib.return_book isbn).2
  | restore (lib : Library) (content : Option (List Book)) : Reachable lib →
      Reachable (lib.load_data content)

/-- Like `Reachable`, but every `load_data` call reads well-formed contents:
pairwise-distinct isbns, none of which is already in the primary mapping. -/
inductive GoodReachable : Library → Prop where
  | init : GoodReachable Library.empty
  | add (lib : Library) (isbn title author : String) : GoodReachable lib →
      GoodReachable (lib.add_book isbn title author).2
  | issue (lib : Library) (isbn user_id : String) : GoodReachable lib →
      GoodReachable (lib.issue_book isbn user_id).2
  | ret (lib : Library) (isbn : String) : GoodReachable lib →
      GoodReachable (lib.return_book isbn).2
  | restore (lib : Library) (bs : List Book) : GoodReachable lib →
      (bs.map Book.isbn).Nodup →
      (∀ b ∈ bs, lib.books_by_isbn.lookup b.isbn = none) →
      GoodReachable (lib.load_data (some bs))
  | restoreMissing (lib : Library) : GoodReachable lib →
      GoodReachable (lib.load_data none)

/-- The secondary-index key under which the object at tag `t` is filed, when
`f` selects the relevant field (title or author). -/
def tagKey (heap : List Book) (f : Book → String) (t : Nat) : Option String :=
  (heap[t]?).map (fun b => lowerStr (f b))

/-- Internal well-formedness of a store: the primary mapping stores, under
each isbn, a live tag whose object carries that isbn; isbns and index keys
are duplicate-free; and each secondary index holds, under each key, exactly
the tags of the primary entries whose object is filed under that key, in
primary-mapping order. -/
structure Inv (lib : Library) : Prop where
  key_isbn : ∀ p ∈ lib.books_by_isbn,
      ∃ b, lib.heap[p.2]? = some b ∧ b.isbn = p.1
  keys_nodup : (lib.books_by_isbn.map Prod.fst).Nodup
  title_keys_nodup : (lib.books_by_title.map Prod.fst).Nodup
  author_keys_nodup : (lib.books_by_author.map Prod.fst).Nodup
  title_char : ∀ k : String, (lib.books_by_title.lookup k).getD []
      = (lib.books_by_isbn.filter
          (fun p => tagKey lib.heap Book.title p.2 == some k)).map Prod.snd
  author_char : ∀ k : String, (lib.books_by_author.lookup k).getD []
      = (lib.books_by_isbn.filter
          (fun p => tagKey lib.heap Book.author p.2 == some k)).map Prod.snd

/-! ### Generic association-list lemmas -/

theorem lookup_eq_none_of_not_mem {β : Type} (m : List (String × β)) (k : String)
    (h : k ∉ m.map Prod.fst) : m.lookup k = none := by
  induction m with
  | nil => rfl
  | cons p rest ih =>
    obtain ⟨k', v⟩ := p
    simp only [List.map_cons, List.mem_cons] at h
    push_neg at h
    have hne : (k == k') = false := by simp [h.1]
    simp [List.lookup, hne, ih h.2]

theorem not_mem_of_lookup_eq_none {β : Type} (m : List (String × β)) (k : String)
    (h : m.lookup k = none) : k ∉ m.map Prod.fst := by
  induction m with
  | nil => simp
  | cons p rest ih =>
    obtain ⟨k', v⟩ := p
    by_cases he : k = k'
    · subst he
      simp [List.lookup] at h
    · have hne : (k == k') = false := by simp [he]
      simp only [List.lookup, hne] at h
      simp [he, ih h]

theorem lookup_eq_of_mem_of_nodup {β : Type} (m : List (String × β)) (k : String)
    (v : β) (hm : (k, v) ∈ m) (hn : (m.map Prod.fst).Nodup) : m.lookup k = some v := by
  induction m with
  | nil => simp at hm
  | cons p rest ih =>
    obtain ⟨k', v'⟩ := p
    simp only [List.map_cons, List.nodup_cons] at hn
    rcases List.mem_cons.mp hm with he | hrest
    · obtain ⟨hk, hv⟩ := Prod.mk.injEq .. ▸ he
      subst hk
      simp [List.lookup, hv]
    · have hne : k ≠ k' := by
        intro he
        exact hn.1 (he ▸ List.mem_map_of_mem Prod.fst hrest)
      have hbe : (k == k') = false := by simp [hne]
      simp [List.lookup, hbe, ih hrest hn.2]

theorem mem_of_lookup_eq_some {β : Type} (m : List (String × β)) (k : String)
    (v : β) (h : m.lookup k = some v) : (k, v) ∈ m := by
  induction m with
  | nil => simp [List.lookup] at h
  | cons p rest ih =>
    obtain ⟨k', v'⟩ := p
    by_cases he : k = k'
    · subst he
      simp only [List.lookup, beq_self_eq_true] at h
      simp only [Option.some.injEq] at h
      simp [h]
    · have hbe : (k == k') = false := by simp [he]
      simp only [List.lookup, hbe] at h
      exact List.mem_cons_of_mem _ (ih h)

theorem map_fst_setdefaultAppend (idx : List (String × List Nat)) (key : String)
    (t : Nat) :
    (setdefaultAppend idx key t).map Prod.fst
      = if (idx.lookup key).isSome then idx.map Prod.fst
        else idx.map Prod.fst ++ [key] := by
  induction idx with
  | nil => simp [setdefaultAppend, List.lookup]
  | cons p rest ih =>
    obtain ⟨k, v⟩ := p
    by_cases hk : k = key
    · subst hk
      simp [setdefaultAppend, List.lookup]
    · have hbe : (key == k) = false := by simp [Ne.symm hk]
      simp only [setdefaultAppend, if_neg hk, List.map_cons, List.lookup, hbe, ih]
      by_cases hs : (rest.lookup key).isSome
      · simp [hs]
      · simp [hs]

theorem nodup_keys_setdefaultAppend (idx : List (String × List Nat)) (key : String)
    (t : Nat) (h : (idx.map Prod.fst).Nodup) :
    ((setdefaultAppend idx key t).map Prod.fst).Nodup := by
  rw [map_fst_setdefaultAppend]
  by_cases hs : (idx.lookup key).isSome
  · simp [hs, h]
  · have hnone : idx.lookup key = none := by
      cases hl : idx.lookup key
      · rfl
      · rw [hl] at hs
        simp at hs
    have hmem := not_mem_of_lookup_eq_none idx key hnone
    rw [hnone]
    simp only [Option.isSome_none, Bool.false_eq_true, if_false, List.nodup_append]
    exact ⟨h, List.nodup_singleton key, by simpa using hmem⟩

/-! ### tagKey lemmas -/

theorem tagKey_append_of_lt (heap : List Book) (b : Book) (f : Book → String)
    (t : Nat) (h : t < heap.length) :
    tagKey (heap ++ [b]) f t = tagKey heap f t := by
  unfold tagKey
  rw [List.getElem?_append_left h]

theorem tagKey_append_length (heap : List Book) (b : Book) (f : Book → String) :
    tagKey (heap ++ [b]) f heap.length = some (lowerStr (f b)) := by
  unfold tagKey
  rw [List.getElem?_concat_length]
  rfl

theorem tagKey_set_of_field_eq (heap : List Book) (tag : Nat) (b b' : Book)
    (f : Book → String) (hb : heap[tag]? = some b) (hf : f b' = f b) (t : Nat) :
    tagKey (heap.set tag b') f t = tagKey heap f t := by
  have hlt : tag < heap.length := by
    rcases List.getElem?_eq_some.mp hb with ⟨h, _⟩
    exact h
  by_cases he : tag = t
  · subst he
    unfold tagKey
    rw [List.getElem?_set_self hlt, hb]
    simp [hf]
  · unfold tagKey
    rw [List.getElem?_set_ne he]

/-! ### Invariant preservation -/

theorem inv_empty : Inv Library.empty := by
  refine ⟨?_, ?_, ?_, ?_, ?_, ?_⟩
  · intro p hp
    simp [Library.empty] at hp
  · simp [Library.empty]
  · simp [Library.empty]
  · simp [Library.empty]
  · intro k; rfl
  · intro k; rfl

theorem char_insertFresh (heap : List Book) (primary : List (String × Nat))
    (idx : List (String × List Nat)) (f : Book → String) (b : Book)
    (hvalid : ∀ p ∈ primary, p.2 < heap.length)
    (hchar : ∀ k : String, (idx.lookup k).getD []
        = (primary.filter (fun p => tagKey heap f p.2 == some k)).map Prod.snd) :
    ∀ k : String,
      ((setdefaultAppend idx (lowerStr (f b)) heap.length).lookup k).getD []
        = ((primary ++ [(b.isbn, heap.length)]).filter
            (fun p => tagKey (heap ++ [b]) f p.2 == some k)).map Prod.snd := by
  intro k
  have hfilter_old :
      (primary.filter (fun p => tagKey (heap ++ [b]) f p.2 == some k))
        = (primary.filter (fun p => tagKey heap f p.2 == some k)) := by
    apply List.filter_congr
    intro p hp
    rw [tagKey_append_of_lt _ _ _ _ (hvalid p hp)]
  rw [List.filter_append, List.map_append, hfilter_old]
  by_cases hk : k = lowerStr (f b)
  · subst hk
    rw [lookup_setdefaultAppend_self, Option.getD_some, hchar]
    have hcond : (tagKey (heap ++ [b]) f heap.length == some (lowerStr (f b))) = true := by
      rw [tagKey_append_length]
      simp
    simp [hcond]
  · rw [lookup_setdefaultAppend_ne _ _ _ _ hk, hchar]
    have hcond : (tagKey (heap ++ [b]) f heap.length == some k) = false := by
      rw [tagKey_append_length]
      simp
      intro he
      exact hk he.symm
    simp [hcond]

theorem inv_insertFresh (lib : Library) (b : Book)
    (hfresh : lib.books_by_isbn.lookup b.isbn = none) (hInv : Inv lib) :
    Inv { heap := lib.heap ++ [b]
          books_by_isbn := dictInsert lib.books_by_isbn b.isbn lib.heap.length
          books_by_title :=
            setdefaultAppend lib.books_by_title (lowerStr b.title) lib.heap.length
          books_by_author :=
            setdefaultAppend lib.books_by_author (lowerStr b.author) lib.heap.length } := by
  have hins : dictInsert lib.books_by_isbn b.isbn lib.heap.length
      = lib.books_by_isbn ++ [(b.isbn, lib.heap.length)] :=
    dictInsert_of_lookup_none _ _ _ hfresh
  have hvalid : ∀ p ∈ lib.books_by_isbn, p.2 < lib.heap.length := by
    intro p hp
    obtain ⟨bb, hbb, _⟩ := hInv.key_isbn p hp
    rcases List.getElem?_eq_some.mp hbb with ⟨h, _⟩
    exact h
  refine ⟨?_, ?_, ?_, ?_, ?_, ?_⟩
  · intro p hp
    simp only [hins] at hp
    rcases List.mem_append.mp hp with hold | hnew
    · obtain ⟨bb, hbb, hi⟩ := hInv.key_isbn p hold
      refine ⟨bb, ?_, hi⟩
      show (lib.heap ++ [b])[p.2]? = some bb
      rw [List.getElem?_append_left (hvalid p hold)]
      exact hbb
    · simp only [List.mem_singleton] at hnew
      subst hnew
      exact ⟨b, List.getElem?_concat_length _ _, rfl⟩
  · show ((dictInsert lib.books_by_isbn b.isbn lib.heap.length).map Prod.fst).Nodup
    rw [hins, List.map_append, List.nodup_append]
    refine ⟨hInv.keys_nodup, by simp, ?_⟩
    intro x hx hx'
    simp only [List.map_cons, List.map_nil, List.mem_singleton] at hx'
    subst hx'
    exact (not_mem_of_lookup_eq_none _ _ hfresh) hx
  · exact nodup_keys_setdefaultAppend _ _ _ hInv.title_keys_nodup
  · exact nodup_keys_setdefaultAppend _ _ _ hInv.author_keys_nodup
  · intro k
    show ((setdefaultAppend lib.books_by_title (lowerStr b.title)
        lib.heap.length).lookup k).getD []
      = ((dictInsert lib.books_by_isbn b.isbn lib.heap.length).filter
          (fun p => tagKey (lib.heap ++ [b]) Book.title p.2 == some k)).map Prod.snd
    rw [hins]
    exact char_insertFresh lib.heap lib.books_by_isbn lib.books_by_title
      Book.title b hvalid hInv.title_char k
  · intro k
    show ((setdefaultAppend lib.books_by_author (lowerStr b.author)
        lib.heap.length).lookup k).getD []
      = ((dictInsert lib.books_by_isbn b.isbn lib.heap.length).filter
          (fun p => tagKey (lib.heap ++ [b]) Book.author p.2 == some k)).map Prod.snd
    rw [hins]
    exact char_insertFresh lib.heap lib.books_by_isbn lib.books_by_author
      Book.author b hvalid hInv.author_char k

theorem inv_loadOne (lib : Library) (b : Book)
    (hfresh : lib.books_by_isbn.lookup b.isbn = none) (hInv : Inv lib) :
    Inv (lib.loadOne b) :=
  inv_insertFresh lib b hfresh hInv

theorem inv_add (lib : Library) (isbn title author : String) (hInv : Inv lib) :
    Inv (lib.add_book isbn title author).2 := by
  by_cases h : (lib.books_by_isbn.lookup isbn).isSome
  · simpa [Library.add_book, h] using hInv
  · have hnone : lib.books_by_isbn.lookup isbn = none :=
      Option.not_isSome_iff_eq_none.mp (by simpa using h)
    have hres := inv_insertFresh lib ⟨isbn, title, author, none⟩ hnone hInv
    simpa [Library.add_book, h] using hres

theorem inv_setSame (lib : Library) (tag : Nat) (b b' : Book)
    (hb : lib.heap[tag]? = some b) (hisbn : b'.isbn = b.isbn)
    (htitle : b'.title = b.title) (hauthor : b'.author = b.author)
    (hInv : Inv lib) : Inv { lib with heap := lib.heap.set tag b' } := by
  have hlt : tag < lib.heap.length := by
    rcases List.getElem?_eq_some.mp hb with ⟨h, _⟩
    exact h
  refine ⟨?_, hInv.keys_nodup, hInv.title_keys_nodup, hInv.author_keys_nodup, ?_, ?_⟩
  · intro p hp
    obtain ⟨bb, hbb, hi⟩ := hInv.key_isbn p hp
    by_cases he : tag = p.2
    · rw [← he] at hbb
      rw [hb] at hbb
      obtain rfl : b = bb := Option.some.inj hbb
      refine ⟨b', ?_, hisbn.trans hi⟩
      show (lib.heap.set tag b')[p.2]? = some b'
      rw [← he, List.getElem?_set_self hlt]
    · refine ⟨bb, ?_, hi⟩
      show (lib.heap.set tag b')[p.2]? = some bb
      rw [List.getElem?_set_ne he]
      exact hbb
  · intro k
    show ((lib.books_by_title.lookup k).getD [])
      = (lib.books_by_isbn.filter
          (fun p => tagKey (lib.heap.set tag b') Book.title p.2 == some k)).map Prod.snd
    rw [hInv.title_char k]
    congr 1
    apply List.filter_congr
    intro p _
    rw [tagKey_set_of_field_eq lib.heap tag b b' Book.title hb htitle]
  · intro k
    show ((lib.books_by_author.lookup k).getD [])
      = (lib.books_by_isbn.filter
          (fun p => tagKey (lib.heap.set tag b') Book.author p.2 == some k)).map Prod.snd
    rw [hInv.author_char k]
    congr 1
    apply List.filter_congr
    intro p _
    rw [tagKey_set_of_field_eq lib.heap tag b b' Book.author hb hauthor]

theorem issue_to_fields (b : Book) (u : String) :
    (b.issue_to u).2.isbn = b.isbn ∧ (b.issue_to u).2.title = b.title ∧
    (b.issue_to u).2.author = b.author := by
  unfold Book.issue_to
  cases b.issued_to <;> simp

theorem return_book_fields (b : Book) :
    b.return_book.2.isbn = b.isbn ∧ b.return_book.2.title = b.title ∧
    b.return_book.2.author = b.author := by
  unfold Book.return_book
  cases b.issued_to <;> simp

theorem issue_book_found (lib : Library) (isbn user_id : String) (tag : Nat)
    (book : Book) (hl : lib.books_by_isbn.lookup isbn = some tag)
    (hg : lib.heap[tag]? = some book) :
    lib.issue_book isbn user_id
      = ((book.issue_to user_id).1,
          { lib with heap := lib.heap.set tag (book.issue_to user_id).2 }) := by
  simp [Library.issue_book, hl, hg]

theorem return_book_found (lib : Library) (isbn : String) (tag : Nat)
    (book : Book) (hl : lib.books_by_isbn.lookup isbn = some tag)
    (hg : lib.heap[tag]? = some book) :
    lib.return_book isbn
      = (book.return_book.1,
          { lib with heap := lib.heap.set tag book.return_book.2 }) := by
  simp [Library.return_book, hl, hg]

theorem inv_issue (lib : Library) (isbn user_id : String) (hInv : Inv lib) :
    Inv (lib.issue_book isbn user_id).2 := by
  cases hl : lib.books_by_isbn.lookup isbn with
  | none =>
    have heq : lib.issue_book isbn user_id = (false, lib) := by
      simp [Library.issue_book, hl]
    rw [heq]
    exact hInv
  | some tag =>
    cases hg : lib.heap[tag]? with
    | none =>
      have heq : lib.issue_book isbn user_id = (false, lib) := by
        simp [Library.issue_book, hl, hg]
      rw [heq]
      exact hInv
    | some book =>
      rw [issue_book_found lib isbn user_id tag book hl hg]
      obtain ⟨h1, h2, h3⟩ := issue_to_fields book user_id
      exact inv_setSame lib tag book (book.issue_to user_id).2 hg h1 h2 h3 hInv

theorem inv_ret (lib : Library) (isbn : String) (hInv : Inv lib) :
    Inv (lib.return_book isbn).2 := by
  cases hl : lib.books_by_isbn.lookup isbn with
  | none =>
    have heq : lib.return_book isbn = (false, lib) := by
      simp [Library.return_book, hl]
    rw [heq]
    exact hInv
  | some tag =>
    cases hg : lib.heap[tag]? with
    | none =>
      have heq : lib.return_book isbn = (false, lib) := by
        simp [Library.return_book, hl, hg]
      rw [heq]
      exact hInv
    | some book =>
      rw [return_book_found lib isbn tag book hl hg]
      obtain ⟨h1, h2, h3⟩ := return_book_fields book
      exact inv_setSame lib tag book book.return_book.2 hg h1 h2 h3 hInv

theorem map_fst_loadOne (lib : Library) (b : Book)
    (hfresh : lib.books_by_isbn.lookup b.isbn = none) :
    (lib.loadOne b).books_by_isbn.map Prod.fst
      = lib.books_by_isbn.map Prod.fst ++ [b.isbn] := by
  show (dictInsert lib.books_by_isbn b.isbn lib.heap.length).map Prod.fst = _
  rw [dictInsert_of_lookup_none _ _ _ hfresh, List.map_append]
  rfl

theorem inv_load (bs : List Book) : ∀ lib : Library, Inv lib →
    (bs.map Book.isbn).Nodup →
    (∀ b ∈ bs, lib.books_by_isbn.lookup b.isbn = none) →
    Inv (lib.load_data (some bs)) := by
  induction bs with
  | nil =>
    intro lib hInv _ _
    exact hInv
  | cons b rest ih =>
    intro lib hInv hnd hfresh
    simp only [List.map_cons, List.nodup_cons] at hnd
    have hb : lib.books_by_isbn.lookup b.isbn = none := hfresh b (by simp)
    have hInv' : Inv (lib.loadOne b) := inv_loadOne lib b hb hInv
    have hfresh' : ∀ b' ∈ rest,
        (lib.loadOne b).books_by_isbn.lookup b'.isbn = none := by
      intro b' hb'
      apply lookup_eq_none_of_not_mem
      rw [map_fst_loadOne lib b hb]
      simp only [List.mem_append, List.mem_singleton]
      push_neg
      constructor
      · exact not_mem_of_lookup_eq_none _ _ (hfresh b' (List.mem_cons_of_mem b hb'))
      · intro he
        exact hnd.1 (he ▸ List.mem_map_of_mem Book.isbn hb')
    exact ih (lib.loadOne b) hInv' hnd.2 hfresh'

theorem inv_of_goodReachable (lib : Library) (h : GoodReachable lib) : Inv lib := by
  induction h with
  | init => exact inv_empty
  | add lib i t a _ ih => exact inv_add lib i t a ih
  | issue lib i u _ ih => exact inv_issue lib i u ih
  | ret lib i _ ih => exact inv_ret lib i ih
  | restore lib bs _ hnd hfresh ih => exact inv_load bs lib ih hnd hfresh
  | restoreMissing lib _ ih => exact ih

/-! ### Consistency from the invariant -/

theorem mem_indexBooks_iff (lib : Library) (idx : List (String × List Nat))
    (b : Book) :
    (b ∈ ((idx.map Prod.snd).flatten).filterMap (fun t => lib.heap[t]?))
      ↔ ∃ k v, (k, v) ∈ idx ∧ ∃ t ∈ v, lib.heap[t]? = some b := by
  constructor
  · intro hb
    obtain ⟨t, ht, hder⟩ := List.mem_filterMap.mp hb
    obtain ⟨v, hv, htv⟩ := List.mem_flatten.mp ht
    obtain ⟨⟨k, v'⟩, hkv, he⟩ := List.mem_map.mp hv
    subst he
    exact ⟨k, v', hkv, t, htv, hder⟩
  · intro ⟨k, v, hkv, t, htv, hder⟩
    refine List.mem_filterMap.mpr ⟨t, ?_, hder⟩
    exact List.mem_flatten.mpr ⟨v, List.mem_map_of_mem Prod.snd hkv, htv⟩

theorem index_books_sub_values (lib : Library) (idx : List (String × List Nat))
    (f : Book → String)
    (hnodup : (idx.map Prod.fst).Nodup)
    (hchar : ∀ k : String, (idx.lookup k).getD []
        = (lib.books_by_isbn.filter
            (fun p => tagKey lib.heap f p.2 == some k)).map Prod.snd) :
    ∀ b ∈ ((idx.map Prod.snd).flatten).filterMap (fun t => lib.heap[t]?),
      b ∈ lib.values := by
  intro b hb
  obtain ⟨k, v, hkv, t, htv, hder⟩ := (mem_indexBooks_iff lib idx b).mp hb
  have hlk : idx.lookup k = some v := lookup_eq_of_mem_of_nodup idx k v hkv hnodup
  have hv : v = (lib.books_by_isbn.filter
      (fun p => tagKey lib.heap f p.2 == some k)).map Prod.snd := by
    rw [← hchar k, hlk]
    rfl
  rw [hv] at htv
  obtain ⟨p, hpf, hpt⟩ := List.mem_map.mp htv
  have hp : p ∈ lib.books_by_isbn := List.mem_of_mem_filter hpf
  exact List.mem_filterMap.mpr ⟨p, hp, by rw [hpt]; exact hder⟩

theorem values_sub_index_books (lib : Library) (idx : List (String × List Nat))
    (f : Book → String)
    (hchar : ∀ k : String, (idx.lookup k).getD []
        = (lib.books_by_isbn.filter
            (fun p => tagKey lib.heap f p.2 == some k)).map Prod.snd) :
    ∀ b ∈ lib.values,
      b ∈ ((idx.map Prod.snd).flatten).filterMap (fun t => lib.heap[t]?) := by
  intro b hb
  obtain ⟨p, hp, hder⟩ := List.mem_filterMap.mp hb
  have hcond : (tagKey lib.heap f p.2 == some (lowerStr (f b))) = true := by
    unfold tagKey
    rw [hder]
    simp
  have hpf : p ∈ lib.books_by_isbn.filter
      (fun q => tagKey lib.heap f q.2 == some (lowerStr (f b))) :=
    List.mem_filter.mpr ⟨hp, hcond⟩
  have hmem : p.2 ∈ (idx.lookup (lowerStr (f b))).getD [] := by
    rw [hchar (lowerStr (f b))]
    exact List.mem_map_of_mem Prod.snd hpf
  cases hlk : idx.lookup (lowerStr (f b)) with
  | none =>
    rw [hlk] at hmem
    simp at hmem
  | some v =>
    rw [hlk] at hmem
    simp only [Option.getD_some] at hmem
    have hkv : (lowerStr (f b), v) ∈ idx := mem_of_lookup_eq_some _ _ _ hlk
    exact (mem_indexBooks_iff lib idx b).mpr ⟨_, v, hkv, p.2, hmem, hder⟩

theorem consistent_of_inv (lib : Library) (hInv : Inv lib) : consistent lib := by
  refine ⟨?_, ?_, ?_, ?_⟩
  · exact index_books_sub_values lib lib.books_by_title Book.title
      hInv.title_keys_nodup hInv.title_char
  · exact index_books_sub_values lib lib.books_by_author Book.author
      hInv.author_keys_nodup hInv.author_char
  · exact values_sub_index_books lib lib.books_by_title Book.title hInv.title_char
  · exact values_sub_index_books lib lib.books_by_author Book.author hInv.author_char

/-! ### Claim C1 -/

/-- C1 as stated is false: restoring a data file whose entries repeat an isbn
is a reachable operation sequence, and it leaves the old object reachable
from the title index but absent from the primary mapping.  The concrete
counterexample restores the two entries `("9","C","Z")` and `("9","D","W")`. -/
theorem reachable_state_violates_consistency :
    Reachable (Library.construct (some [⟨"9", "C", "Z", none⟩, ⟨"9", "D", "W", none⟩])) ∧
    ¬ consistent
      (Library.construct (some [⟨"9", "C", "Z", none⟩, ⟨"9", "D", "W", none⟩])) :=
  ⟨Reachable.restore Library.empty
      (some [⟨"9", "C", "Z", none⟩, ⟨"9", "D", "W", none⟩]) Reachable.init,
    by decide⟩

/-- C1, amended: in every store state reachable by `add_book`, `issue_book`,
`return_book` and `load_data` operations in which every restored file has
pairwise-distinct isbns none of which is already present, every Record
reachable from a secondary index is also in the primary mapping and the sets
of Records reachable from the three structures are identical. -/
theorem good_reachable_consistent (lib : Library) (h : GoodReachable lib) :
    consistent lib :=
  consistent_of_inv lib (inv_of_goodReachable lib h)

/-- Witness for the amended C1 at a concrete reachable store with one book. -/
theorem good_reachable_consistent_witness :
    GoodReachable (Library.empty.add_book "1" "Dune" "Frank Herbert").2 ∧
    consistent (Library.empty.add_book "1" "Dune" "Frank Herbert").2 :=
  ⟨GoodReachable.add Library.empty "1" "Dune" "Frank Herbert" GoodReachable.init,
    good_reachable_consistent _
      (GoodReachable.add Library.empty "1" "Dune" "Frank Herbert" GoodReachable.init)⟩

/-! ### Round-trip machinery -/

theorem filterMap_length_of_all_some {α β : Type} (f : α → Option β)
    (l : List α) (h : ∀ a ∈ l, ∃ b, f a = some b) :
    (l.filterMap f).length = l.length := by
  induction l with
  | nil => rfl
  | cons a rest ih =>
    obtain ⟨b, hb⟩ := h a (by simp)
    rw [List.filterMap_cons, hb]
    simp only [List.length_cons]
    rw [ih (fun a' ha' => h a' (List.mem_cons_of_mem a ha'))]

theorem filterMap_deref_map_isbn (heap : List Book) :
    ∀ l : List (String × Nat),
      (∀ p ∈ l, ∃ b, heap[p.2]? = some b ∧ b.isbn = p.1) →
      (l.filterMap (fun p => heap[p.2]?)).map Book.isbn = l.map Prod.fst := by
  intro l
  induction l with
  | nil => intro _; rfl
  | cons p rest ih =>
    intro h
    obtain ⟨b, hb, hisbn⟩ := h p (by simp)
    rw [List.filterMap_cons, hb]
    simp only [List.map_cons]
    rw [ih (fun q hq => h q (List.mem_cons_of_mem p hq))]
    simp [hisbn]

theorem values_length_eq_total (lib : Library) (hInv : Inv lib) :
    lib.values.length = lib.total_books := by
  apply filterMap_length_of_all_some
  intro p hp
  obtain ⟨b, hb, _⟩ := hInv.key_isbn p hp
  exact ⟨b, hb⟩

theorem filterMap_deref_filter (heap : List Book) (f : Book → String) (k : String) :
    ∀ l : List (String × Nat),
      (∀ p ∈ l, ∃ b, heap[p.2]? = some b) →
      ((l.filter (fun p => tagKey heap f p.2 == some k)).map Prod.snd).filterMap
          (fun t => heap[t]?)
        = (l.filterMap (fun p => heap[p.2]?)).filter
            (fun b => lowerStr (f b) == k) := by
  intro l
  induction l with
  | nil => intro _; rfl
  | cons p rest ih =>
    intro h
    obtain ⟨b, hb⟩ := h p (by simp)
    have hrest := ih (fun q hq => h q (List.mem_cons_of_mem p hq))
    have htk : tagKey heap f p.2 = some (lowerStr (f b)) := by
      unfold tagKey
      rw [hb]
      rfl
    by_cases hc : lowerStr (f b) = k
    · have hcond : (tagKey heap f p.2 == some k) = true := by
        rw [htk]
        simp [hc]
      have hcond2 : (lowerStr (f b) == k) = true := by simp [hc]
      simp only [List.filter_cons, hcond, if_true, List.map_cons,
        List.filterMap_cons, hb, hcond2, hrest]
    · have hcond : (tagKey heap f p.2 == some k) = false := by
        rw [htk]
        simp [hc]
      have hcond2 : (lowerStr (f b) == k) = false := by simp [hc]
      simp only [List.filter_cons, hcond, Bool.false_eq_true, if_false,
        List.filterMap_cons, hb, hcond2, hrest]

theorem search_title_values (lib : Library) (hInv : Inv lib) (q : String) :
    (lib.search_by_title q).1
      = lib.values.filter (fun b => lowerStr b.title == lowerStr q) := by
  show (((lib.books_by_title.lookup (lowerStr q)).getD []).filterMap
      (fun t => lib.heap[t]?)) = _
  rw [hInv.title_char (lowerStr q)]
  exact filterMap_deref_filter lib.heap Book.title (lowerStr q) lib.books_by_isbn
    (fun p hp => (hInv.key_isbn p hp).imp (fun b hb => hb.1))

theorem search_author_values (lib : Library) (hInv : Inv lib) (q : String) :
    (lib.search_by_author q).1
      = lib.values.filter (fun b => lowerStr b.author == lowerStr q) := by
  show (((lib.books_by_author.lookup (lowerStr q)).getD []).filterMap
      (fun t => lib.heap[t]?)) = _
  rw [hInv.author_char (lowerStr q)]
  exact filterMap_deref_filter lib.heap Book.author (lowerStr q) lib.books_by_isbn
    (fun p hp => (hInv.key_isbn p hp).imp (fun b hb => hb.1))

theorem fresh_after_loadOne (lib : Library) (b : Book) (rest : List Book)
    (hb : lib.books_by_isbn.lookup b.isbn = none)
    (hnotmem : b.isbn ∉ rest.map Book.isbn)
    (hfresh : ∀ b' ∈ rest, lib.books_by_isbn.lookup b'.isbn = none) :
    ∀ b' ∈ rest, (lib.loadOne b).books_by_isbn.lookup b'.isbn = none := by
  intro b' hb'
  apply lookup_eq_none_of_not_mem
  rw [map_fst_loadOne lib b hb]
  simp only [List.mem_append, List.mem_singleton]
  push_neg
  constructor
  · exact not_mem_of_lookup_eq_none _ _ (hfresh b' hb')
  · intro he
    exact hnotmem (he ▸ List.mem_map_of_mem Book.isbn hb')

theorem values_loadOne (lib : Library) (b : Book)
    (hfresh : lib.books_by_isbn.lookup b.isbn = none)
    (hvalid : ∀ p ∈ lib.books_by_isbn, ∃ bb, lib.heap[p.2]? = some bb) :
    (lib.loadOne b).values = lib.values ++ [b] := by
  show ((dictInsert lib.books_by_isbn b.isbn lib.heap.length).filterMap
      (fun p => (lib.heap ++ [b])[p.2]?)) = _
  rw [dictInsert_of_lookup_none _ _ _ hfresh, List.filterMap_append]
  congr 1
  · apply List.filterMap_congr
    intro p hp
    obtain ⟨bb, hbb⟩ := hvalid p hp
    have hlt : p.2 < lib.heap.length := by
      rcases List.getElem?_eq_some.mp hbb with ⟨hh, _⟩
      exact hh
    rw [List.getElem?_append_left hlt]
  · show List.filterMap _ [(b.isbn, lib.heap.length)] = [b]
    simp [List.filterMap_cons, List.getElem?_concat_length]

theorem values_load (bs : List Book) : ∀ lib : Library, Inv lib →
    (bs.map Book.isbn).Nodup →
    (∀ b ∈ bs, lib.books_by_isbn.lookup b.isbn = none) →
    (lib.load_data (some bs)).values = lib.values ++ bs := by
  induction bs with
  | nil =>
    intro lib _ _ _
    simp [Library.load_data]
  | cons b rest ih =>
    intro lib hInv hnd hfresh
    simp only [List.map_cons, List.nodup_cons] at hnd
    have hb : lib.books_by_isbn.lookup b.isbn = none := hfresh b (by simp)
    have h1 : (lib.loadOne b).values = lib.values ++ [b] :=
      values_loadOne lib b hb
        (fun p hp => (hInv.key_isbn p hp).imp (fun bb hbb => hbb.1))
    have hInv' := inv_loadOne lib b hb hInv
    have hfresh' := fresh_after_loadOne lib b rest hb hnd.1
      (fun b' hb' => hfresh b' (List.mem_cons_of_mem b hb'))
    have hstep : lib.load_data (some (b :: rest))
        = (lib.loadOne b).load_data (some rest) := rfl
    rw [hstep, ih (lib.loadOne b) hInv' hnd.2 hfresh', h1]
    simp

/-! ### Claim C2 -/

/-- C2 as stated (over all reachable stores) is false: after restoring a file
with a duplicated isbn, `save_data` only serializes the primary mapping, so
the overwritten object reachable from the title index is dropped, and the
rebuilt store answers `search_by_title "A"` differently. -/
theorem roundtrip_fails_on_reachable_state :
    Reachable (Library.construct (some [⟨"1", "A", "X", none⟩, ⟨"1", "B", "Y", none⟩])) ∧
    ¬ (((Library.construct (some
          (Library.construct (some [⟨"1", "A", "X", none⟩,
            ⟨"1", "B", "Y", none⟩])).save_data)).search_by_title "A").1
        = ((Library.construct (some [⟨"1", "A", "X", none⟩,
            ⟨"1", "B", "Y", none⟩])).search_by_title "A").1) :=
  ⟨Reachable.restore Library.empty
      (some [⟨"1", "A", "X", none⟩, ⟨"1", "B", "Y", none⟩]) Reachable.init,
    by decide⟩

/-- C2, amended: for every store reachable with well-formed restores (the
states satisfying the index-consistency invariant), saving and then
constructing a fresh store from the saved file preserves `total_books`,
`issued_count`, and every `search_by_title` / `search_by_author` result. -/
theorem save_then_restore_roundtrip (lib : Library) (h : GoodReachable lib) :
    (Library.construct (some lib.save_data)).total_books = lib.total_books ∧
    (Library.construct (some lib.save_data)).issued_count = lib.issued_count ∧
    (∀ q, ((Library.construct (some lib.save_data)).search_by_title q).1
        = (lib.search_by_title q).1) ∧
    (∀ q, ((Library.construct (some lib.save_data)).search_by_author q).1
        = (lib.search_by_author q).1) := by
  have hInv := inv_of_goodReachable lib h
  have hnd : (lib.save_data.map Book.isbn).Nodup := by
    show ((lib.books_by_isbn.filterMap (fun p => lib.heap[p.2]?)).map Book.isbn).Nodup
    rw [filterMap_deref_map_isbn lib.heap lib.books_by_isbn hInv.key_isbn]
    exact hInv.keys_nodup
  have hfresh : ∀ b ∈ lib.save_data,
      Library.empty.books_by_isbn.lookup b.isbn = none := by
    intro b _
    rfl
  have hrv : (Library.construct (some lib.save_data)).values = lib.values := by
    show (Library.empty.load_data (some lib.save_data)).values = _
    rw [values_load lib.save_data Library.empty inv_empty hnd hfresh]
    exact List.nil_append _
  have hIr : Inv (Library.construct (some lib.save_data)) :=
    inv_load lib.save_data Library.empty inv_empty hnd hfresh
  refine ⟨?_, ?_, ?_, ?_⟩
  · rw [← values_length_eq_total _ hIr, hrv, values_length_eq_total lib hInv]
  · show ((Library.construct (some lib.save_data)).values.filter
        Book.is_issued).length = _
    rw [hrv]
    rfl
  · intro q
    rw [search_title_values _ hIr q, search_title_values lib hInv q, hrv]
  · intro q
    rw [search_author_values _ hIr q, search_author_values lib hInv q, hrv]

/-- Witness for the amended C2 at a concrete one-book store. -/
theorem save_then_restore_roundtrip_witness :
    GoodReachable (Library.empty.add_book "1" "Dune" "Frank Herbert").2 ∧
    (Library.construct
        (some (Library.empty.add_book "1" "Dune" "Frank Herbert").2.save_data)).total_books
      = (Library.empty.add_book "1" "Dune" "Frank Herbert").2.total_books ∧
    ((Library.construct
        (some (Library.empty.add_book "1" "Dune" "Frank Herbert").2.save_data)).search_by_title
        "dune").1
      = ((Library.empty.add_book "1" "Dune" "Frank Herbert").2.search_by_title "dune").1 :=
  ⟨GoodReachable.add Library.empty "1" "Dune" "Frank Herbert" GoodReachable.init,
    (save_then_restore_roundtrip _
      (GoodReachable.add Library.empty "1" "Dune" "Frank Herbert" GoodReachable.init)).1,
    (save_then_restore_roundtrip _
      (GoodReachable.add Library.empty "1" "Dune" "Frank Herbert"
        GoodReachable.init)).2.2.1 "dune"⟩

end Week2
